import Mathlib

/-!
Verification of the build_compile source-generation driver (src/src/lib.rs).

The driver scans a directory tree for files with a given extension, decides
per file whether the derived `.rs` output is stale, and regenerates stale
outputs: remove old output, load the input, create the output, run the
processor, then mark the output read-only.  Errors are reported either as
source diagnostics (fatal, exit 1) or as I/O failures (printed, loop ends).

The embedding models the filesystem as an explicit state (a partial map from
paths to file info) together with injected environmental errors per
operation, so that platform-specific failures (permission denied on remove,
metadata errors, etc.) are expressible.  Filesystem-mutating runs also
produce an event trace recording the order of remove/load/create/write/lock
steps, mirroring the order of the calls in `perform_processing`.
-/

namespace BuildCompile

/-- Kinds of I/O errors, mirroring the `std::io::ErrorKind` values the code
inspects (`NotFound`, `PermissionDenied`) plus all others. -/
inductive IoErrorKind : Type where
  | NotFound
  | PermissionDenied
  | Other (code : Nat)
deriving DecidableEq, Repr

/-- An I/O error: a kind plus a human-readable description (the `Display`
text printed by the driver's I/O-failure branch). -/
structure IoError : Type where
  kind : IoErrorKind
  descr : String
deriving DecidableEq, Repr

/-- The NotFound error produced by filesystem primitives on absent paths. -/
def notFoundError : IoError := ⟨IoErrorKind.NotFound, "entity not found"⟩

/-- The PermissionDenied error produced when creating over a read-only file. -/
def permDeniedError : IoError := ⟨IoErrorKind.PermissionDenied, "permission denied"⟩

/-- A filesystem path: parent directory components, a file stem, and an
optional extension, mirroring the parts of `std::path::Path` the driver
uses (`extension`, `with_extension`, `display`). -/
structure Path : Type where
  dirs : List String
  stem : String
  ext : Option String
deriving DecidableEq, Repr

/-- Embeds `Path::with_extension`: replace (or add) the extension. -/
def Path.withExtension (p : Path) (e : String) : Path :=
  { p with ext := some e }

/-- The file name part of a path, extension included. -/
def Path.fileName (p : Path) : String :=
  p.stem ++ (match p.ext with
             | some e => "." ++ e
             | none => "")

/-- Embeds `Path::display`: render the path as a string. -/
def Path.display (p : Path) : String :=
  String.intercalate "/" (p.dirs ++ [p.fileName])

/-- Metadata and content of one file: modification time, the read-only
permission bit, and the raw bytes. -/
structure FileInfo : Type where
  mtime : Int
  readonly : Bool
  content : List Nat
deriving DecidableEq, Repr

/-- Filesystem state: the file map plus injected environmental errors for
each primitive (modelling permission problems, disk errors and the
platform-specific removal behavior), and the current clock used as the
mtime of newly written files. -/
structure FS : Type where
  files : Path → Option FileInfo
  metaErr : Path → Option IoError
  removeErr : Path → Option IoError
  createErr : Path → Option IoError
  loadErr : Path → Option IoError
  permErr : Path → Option IoError
  now : Int

/-- Update the file map at one path. -/
def FS.setFile (fs : FS) (p : Path) (info : FileInfo) : FS :=
  { fs with files := fun q => if q = p then some info else fs.files q }

/-- Delete a path from the file map. -/
def FS.eraseFile (fs : FS) (p : Path) : FS :=
  { fs with files := fun q => if q = p then none else fs.files q }

/-- Embeds `fs::metadata`: injected error if any, else the file info, else NotFound. -/
def FS.metadata (fs : FS) (p : Path) : Except IoError FileInfo :=
  match fs.metaErr p with
  | some e => Except.error e
  | none =>
    match fs.files p with
    | some info => Except.ok info
    | none => Except.error notFoundError

/-- Embeds `fs::remove_file`: injected error if any, else delete the file, else
NotFound. -/
def FS.removeFile (fs : FS) (p : Path) : Except IoError FS :=
  match fs.removeErr p with
  | some e => Except.error e
  | none =>
    match fs.files p with
    | some _ => Except.ok (fs.eraseFile p)
    | none => Except.error notFoundError

/-- Embeds `fs::File::create`: injected error if any; creating over an existing
read-only file is denied; otherwise the file is created empty (truncating
any previous content) and writable. -/
def FS.createFile (fs : FS) (p : Path) : Except IoError FS :=
  match fs.createErr p with
  | some e => Except.error e
  | none =>
    match fs.files p with
    | some info =>
      if info.readonly then Except.error permDeniedError
      else Except.ok (fs.setFile p ⟨fs.now, false, []⟩)
    | none => Except.ok (fs.setFile p ⟨fs.now, false, []⟩)

/-- Append bytes written through an open handle to the file's content. -/
def FS.writeBytes (fs : FS) (p : Path) (bytes : List Nat) : FS :=
  match fs.files p with
  | some info => fs.setFile p { info with content := info.content ++ bytes }
  | none => fs

/-- Set the read-only permission bit (`Permissions::set_readonly` +
`fs::set_permissions`): injected error if any, else flip the bit. -/
def FS.setReadonly (fs : FS) (p : Path) : Except IoError FS :=
  match fs.permErr p with
  | some e => Except.error e
  | none =>
    match fs.files p with
    | some info => Except.ok (fs.setFile p { info with readonly := true })
    | none => Except.error notFoundError

/-- A byte-offset span `Span(start, end)` into a source file. -/
structure Span : Type where
  start : Nat
  stop : Nat
deriving DecidableEq, Repr

/-- A loaded source file: its path and its raw bytes.  The `filetext`
module itself is not part of the core source; this carries exactly what
the spec's position-mapping contract requires. -/
structure FileText : Type where
  path : Path
  content : List Nat
deriving DecidableEq, Repr

/-- Walk `offset` bytes of the content, tracking the current zero-based
line and column; byte 10 is the newline. -/
def lineColAux : List Nat → Nat → Nat → Nat → Nat × Nat
  | _, 0, line, col => (line, col)
  | [], _ + 1, line, col => (line, col)
  | b :: rest, o + 1, line, col =>
    if b = 10 then lineColAux rest o (line + 1) 0
    else lineColAux rest o line (col + 1)

/-- Modelled from the spec: the position-mapping collaborator of the
missing `filetext` module ("given a byte offset, return a (line, column)
pair, both zero-based internally").  The line is the number of newlines
among the first `offset` bytes; the column is the distance from the last
newline. -/
def FileText.line_col (ft : FileText) (offset : Nat) : Nat × Nat :=
  lineColAux ft.content offset 0 0

/-- Embeds `FileText::from_path`: injected load error if any, else read the file's
bytes, else NotFound. -/
def FileText.from_path (fs : FS) (p : Path) : Except IoError FileText :=
  match fs.loadErr p with
  | some e => Except.error e
  | none =>
    match fs.files p with
    | some info => Except.ok ⟨p, info.content⟩
    | none => Except.error notFoundError

/-- The driver's error type: a source diagnostic (file, message, span), or
an I/O failure. -/
inductive Error : Type where
  | sourceError (ft : FileText) (cause : String) (span : Span)
  | ioFailure (e : IoError)
deriving DecidableEq, Repr

/-- The pluggable transformation: given the loaded input, it writes bytes
to the output handle and returns success or an error; the bytes written up
to the point of failure are recorded either way. -/
structure Processor : Type where
  process : FileText → List Nat × Except Error Unit

/-- Embeds `compare_modification_times` (unix variant): input mtime ≥ output mtime. -/
def compare_modification_times (metadata rs_metadata : FileInfo) : Bool :=
  metadata.mtime ≥ rs_metadata.mtime

/-- Embeds `needs_rebuild`: stat the output; if that succeeds, stat the input and
compare mtimes; a NotFound on the output means rebuild; any other output
metadata error propagates. -/
def needs_rebuild (fs : FS) (file rs_file : Path) : Except IoError Bool :=
  match fs.metadata rs_file with
  | Except.ok rs_metadata =>
    match fs.metadata file with
    | Except.ok metadata => Except.ok (compare_modification_times metadata rs_metadata)
    | Except.error e => Except.error e
  | Except.error e =>
    match e.kind with
    | IoErrorKind.NotFound => Except.ok true
    | _ => Except.error e

/-- The rebuild decision `force_build || try!(needs_rebuild(..))`, with the
short-circuit of `||`: when forcing, `needs_rebuild` is never consulted.
`Except.ok true` is the `Rebuild` decision, `Except.ok false` is `Skip`. -/
def rebuildDecision (force_build : Bool) (fs : FS) (file rs_file : Path) :
    Except IoError Bool :=
  if force_build then Except.ok true else needs_rebuild fs file rs_file

/-- Embeds `remove_old_file`: a NotFound or PermissionDenied from the removal is a
no-op (Unix reports NotFound, Windows PermissionDenied for a previously
read-only output); any other error propagates. -/
def remove_old_file (fs : FS) (rs_file : Path) : Except IoError FS :=
  match fs.removeFile rs_file with
  | Except.ok fs' => Except.ok fs'
  | Except.error e =>
    match e.kind with
    | IoErrorKind.NotFound => Except.ok fs
    | IoErrorKind.PermissionDenied => Except.ok fs
    | _ => Except.error e

/-- Embeds `make_read_only`: stat the file, then set its permissions read-only. -/
def make_read_only (fs : FS) (rs_file : Path) : Except IoError FS :=
  match fs.metadata rs_file with
  | Except.error e => Except.error e
  | Except.ok _ => fs.setReadonly rs_file

/-- One filesystem-mutating step of the rebuild protocol, recorded in the
order `perform_processing` performs them. -/
inductive Event : Type where
  | removed (p : Path)
  | loaded (p : Path)
  | created (p : Path)
  | wrote (p : Path) (bytes : List Nat)
  | locked (p : Path)
deriving DecidableEq, Repr

/-- The body of `perform_processing`'s loop for one discovered file:
compute the rebuild decision; on `Rebuild`, remove the old output, load the
input, create the output, run the processor, and lock the output.  Returns
the new filesystem, the trace of completed steps, and the result. -/
def processOne (proc : Processor) (force_build : Bool) (fs : FS) (file : Path) :
    FS × List Event × Except Error Unit :=
  let rs_file := file.withExtension "rs"
  match rebuildDecision force_build fs file rs_file with
  | Except.error e => (fs, [], Except.error (Error.ioFailure e))
  | Except.ok false => (fs, [], Except.ok ())
  | Except.ok true =>
    match remove_old_file fs rs_file with
    | Except.error e => (fs, [], Except.error (Error.ioFailure e))
    | Except.ok fs1 =>
      match FileText.from_path fs1 file with
      | Except.error e =>
        (fs1, [Event.removed rs_file], Except.error (Error.ioFailure e))
      | Except.ok input_file =>
        match fs1.createFile rs_file with
        | Except.error e =>
          (fs1, [Event.removed rs_file, Event.loaded file],
           Except.error (Error.ioFailure e))
        | Except.ok fs2 =>
          let written := (proc.process input_file).1
          let fs3 := fs2.writeBytes rs_file written
          match (proc.process input_file).2 with
          | Except.error e =>
            (fs3, [Event.removed rs_file, Event.loaded file,
                   Event.created rs_file, Event.wrote rs_file written],
             Except.error e)
          | Except.ok () =>
            match make_read_only fs3 rs_file with
            | Except.error e =>
              (fs3, [Event.removed rs_file, Event.loaded file,
                     Event.created rs_file, Event.wrote rs_file written],
               Except.error (Error.ioFailure e))
            | Except.ok fs4 =>
              (fs4, [Event.removed rs_file, Event.loaded file,
                     Event.created rs_file, Event.wrote rs_file written,
                     Event.locked rs_file],
               Except.ok ())

/-- Embeds `perform_processing`'s loop over the discovered files: sequential, and
the first failure stops the loop. -/
def processFiles (proc : Processor) (force_build : Bool) :
    FS → List Path → FS × List Event × Except Error Unit
  | fs, [] => (fs, [], Except.ok ())
  | fs, file :: rest =>
    match processOne proc force_build fs file with
    | (fs', tr, Except.ok ()) =>
      let res := processFiles proc force_build fs' rest
      (res.1, tr ++ res.2.1, res.2.2)
    | (fs', tr, Except.error e) => (fs', tr, Except.error e)

/-- A directory entry's file type: directory, regular file, or other
(e.g. a symlink). -/
inductive FType : Type where
  | dir
  | regular
  | other
deriving DecidableEq, Repr

mutual
/-- A directory entry as the scanner sees it: its path, the result of
`entry.file_type()` (which can fail), and — read only when the type is a
directory — the result of `fs::read_dir` on it. -/
inductive Entry : Type where
  | mk (path : Path) (ftype : Except IoError FType) (listing : Listing)

/-- The result of `fs::read_dir` on a directory: an I/O error, or its
entries. -/
inductive Listing : Type where
  | readDirErr (e : IoError)
  | entries (l : EntryList)

/-- A list of directory-iterator items. -/
inductive EntryList : Type where
  | nil
  | cons (head : EntryResult) (tail : EntryList)

/-- One item of the directory iterator, which itself can be an error. -/
inductive EntryResult : Type where
  | fail (e : IoError)
  | ok (entry : Entry)
end

mutual
/-- Embeds `files`: recursively collect the regular files whose extension equals
`extension`, propagating the first I/O error. -/
def files (listing : Listing) (extension : String) : Except IoError (List Path) :=
  match listing with
  | Listing.readDirErr e => Except.error e
  | Listing.entries l => filesEntryList l extension

/-- The scanner's loop over one directory's entries. -/
def filesEntryList (l : EntryList) (extension : String) : Except IoError (List Path) :=
  match l with
  | EntryList.nil => Except.ok []
  | EntryList.cons h t =>
    match filesEntryResult h extension with
    | Except.error e => Except.error e
    | Except.ok ps =>
      match filesEntryList t extension with
      | Except.error e => Except.error e
      | Except.ok rest => Except.ok (ps ++ rest)

/-- The scanner's handling of one directory-iterator item: `try!` the item,
`try!` its file type, recurse into directories, and keep regular files with
a matching extension. -/
def filesEntryResult (r : EntryResult) (extension : String) : Except IoError (List Path) :=
  match r with
  | EntryResult.fail e => Except.error e
  | EntryResult.ok (Entry.mk path ftype listing) =>
    match ftype with
    | Except.error e => Except.error e
    | Except.ok ft =>
      match (if ft = FType.dir then files listing extension else Except.ok []) with
      | Except.error e => Except.error e
      | Except.ok sub =>
        Except.ok (sub ++ (if ft = FType.regular ∧ path.ext = some extension
                           then [path] else []))
end

mutual
/-- Specification-level collection: the regular files with the given
extension reachable in the tree, in traversal order, ignoring errors. -/
def matchingFiles (listing : Listing) (extension : String) : List Path :=
  match listing with
  | Listing.readDirErr _ => []
  | Listing.entries l => matchingFilesEntryList l extension

/-- Collection `matchingFiles` over a directory's entries. -/
def matchingFilesEntryList (l : EntryList) (extension : String) : List Path :=
  match l with
  | EntryList.nil => []
  | EntryList.cons h t =>
    matchingFilesEntryResult h extension ++ matchingFilesEntryList t extension

/-- Collection `matchingFiles` over one directory-iterator item. -/
def matchingFilesEntryResult (r : EntryResult) (extension : String) : List Path :=
  match r with
  | EntryResult.fail _ => []
  | EntryResult.ok (Entry.mk path ftype listing) =>
    match ftype with
    | Except.error _ => []
    | Except.ok ft =>
      (if ft = FType.dir then matchingFiles listing extension else []) ++
      (if ft = FType.regular ∧ path.ext = some extension then [path] else [])
end

mutual
/-- The first I/O error the scanner's traversal encounters, if any
(independent of the extension, since every entry's type is inspected and
every directory is recursed into). -/
def firstScanError (listing : Listing) : Option IoError :=
  match listing with
  | Listing.readDirErr e => some e
  | Listing.entries l => firstScanErrorEntryList l

/-- Traversal `firstScanError` over a directory's entries. -/
def firstScanErrorEntryList (l : EntryList) : Option IoError :=
  match l with
  | EntryList.nil => none
  | EntryList.cons h t =>
    match firstScanErrorEntryResult h with
    | some e => some e
    | none => firstScanErrorEntryList t

/-- Traversal `firstScanError` over one directory-iterator item. -/
def firstScanErrorEntryResult (r : EntryResult) : Option IoError :=
  match r with
  | EntryResult.fail e => some e
  | EntryResult.ok (Entry.mk _ ftype listing) =>
    match ftype with
    | Except.error e => some e
    | Except.ok ft => if ft = FType.dir then firstScanError listing else none
end

/-- Embeds `perform_processing`: scan the root directory (whose `read_dir` view is
`listing`), then run the rebuild loop on the discovered files. -/
def perform_processing (proc : Processor) (force_build : Bool) (fs : FS)
    (listing : Listing) (extension : String) :
    FS × List Event × Except Error Unit :=
  match files listing extension with
  | Except.error e => (fs, [], Except.error (Error.ioFailure e))
  | Except.ok fileList => processFiles proc force_build fs fileList

/-- One item printed to standard output: a `println!` line, or the call to
`FileText::highlight` for a span. -/
inductive OutEvent : Type where
  | line (s : String)
  | highlight (ft : FileText) (span : Span)
deriving DecidableEq, Repr

/-- The diagnostic line printed for a source error: both span ends are
mapped to (line, column) independently; lines and the start column are
rendered one-based, the end column zero-based. -/
def sourceDiagLine (ft : FileText) (cause : String) (span : Span) : String :=
  ft.path.display ++ ":" ++
  toString ((ft.line_col span.start).1 + 1) ++ ":" ++
  toString ((ft.line_col span.start).2 + 1) ++ ": " ++
  toString ((ft.line_col span.stop).1 + 1) ++ ":" ++
  toString (ft.line_col span.stop).2 ++
  " error: " ++ cause

/-- The observable outcome of a whole run: final filesystem, filesystem
event trace, printed output, and `some code` when `exit(code)` was called. -/
structure DieResult : Type where
  fs : FS
  events : List Event
  output : List OutEvent
  exited : Option Nat

/-- Embeds `perform_processing_or_die`: run `perform_processing`; on a source
error print the diagnostic line and the highlighted excerpt and exit with
status 1; on an I/O failure print the error's description and return
normally (no exit). -/
def perform_processing_or_die (proc : Processor) (force_build : Bool) (fs : FS)
    (listing : Listing) (extension : String) : DieResult :=
  match perform_processing proc force_build fs listing extension with
  | (fs', tr, Except.ok ()) => ⟨fs', tr, [], none⟩
  | (fs', tr, Except.error (Error.sourceError ft cause span)) =>
    ⟨fs', tr, [OutEvent.line (sourceDiagLine ft cause span),
               OutEvent.highlight ft span], some 1⟩
  | (fs', tr, Except.error (Error.ioFailure e)) =>
    ⟨fs', tr, [OutEvent.line e.descr], none⟩

/-! Concrete fixtures used to instantiate the theorems below. -/

/-- A filesystem with the given file map and no injected errors. -/
def mkFS (files : Path → Option FileInfo) : FS :=
  { files := files
    metaErr := fun _ => none
    removeErr := fun _ => none
    createErr := fun _ => none
    loadErr := fun _ => none
    permErr := fun _ => none
    now := 9 }

/-- Fixture: input file `root/a.ext`. -/
def wpA : Path := ⟨["root"], "a", some "ext"⟩

/-- Fixture: input file `root/sub/b.ext`. -/
def wpB : Path := ⟨["root", "sub"], "b", some "ext"⟩

/-- Fixture: subdirectory `root/sub`. -/
def wpSub : Path := ⟨["root"], "sub", none⟩

/-- Fixture: output file `root/a.rs`. -/
def wpArs : Path := ⟨["root"], "a", some "rs"⟩

/-- Fixture: a path that already carries the generated extension. -/
def wpSelf : Path := ⟨["root"], "gen", some "rs"⟩

/-- Fixture: info of the input file (content "h\ni"). -/
def wInfoA : FileInfo := ⟨5, false, [104, 10, 105]⟩

/-- Fixture: info of a stale, read-only output file. -/
def wInfoOut : FileInfo := ⟨3, true, [1]⟩

/-- Fixture: a filesystem holding only the input `root/a.ext`. -/
def wfs : FS := mkFS (fun q => if q = wpA then some wInfoA else none)

/-- Fixture: an injected non-NotFound metadata error. -/
def wMetaErr : IoError := ⟨IoErrorKind.Other 7, "metadata failure"⟩

/-- Fixture: like `wfs` but statting `root/a.rs` fails with `wMetaErr`. -/
def wfsMeta : FS :=
  { wfs with metaErr := fun q => if q = wpArs then some wMetaErr else none }

/-- Fixture: a filesystem holding input and a newer read-only output. -/
def wfsRo : FS :=
  mkFS (fun q => if q = wpA then some wInfoA
                 else if q = wpArs then some wInfoOut else none)

/-- Fixture: a generic injected I/O error of a kind the code never
special-cases. -/
def wIoErr : IoError := ⟨IoErrorKind.Other 3, "disk error"⟩

/-- Fixture: like `wfsRo` but removing `root/a.rs` fails with `wIoErr`. -/
def wfsRem : FS :=
  { wfsRo with removeErr := fun q => if q = wpArs then some wIoErr else none }

/-- Fixture: a filesystem holding only the `.rs` input `root/gen.rs`. -/
def wfsSelf : FS := mkFS (fun q => if q = wpSelf then some wInfoA else none)

/-- Fixture: a processor that writes two bytes and succeeds. -/
def wProcOk : Processor := ⟨fun _ => ([42, 43], Except.ok ())⟩

/-- Fixture: the span reported by the failing processor. -/
def wSpan : Span := ⟨1, 3⟩

/-- Fixture: a processor that fails with a source error on its input. -/
def wProcSrc : Processor :=
  ⟨fun ft => ([], Except.error (Error.sourceError ft "bad token" wSpan))⟩

/-- Fixture: a processor that writes one byte then fails with an I/O error. -/
def wProcIoFail : Processor := ⟨fun _ => ([7], Except.error (Error.ioFailure wIoErr))⟩

/-- Fixture: a two-level directory tree containing `root/a.ext` and
`root/sub/b.ext`. -/
def wtree : Listing :=
  Listing.entries (EntryList.cons
    (EntryResult.ok (Entry.mk wpA (Except.ok FType.regular)
      (Listing.entries EntryList.nil)))
    (EntryList.cons
      (EntryResult.ok (Entry.mk wpSub (Except.ok FType.dir)
        (Listing.entries (EntryList.cons
          (EntryResult.ok (Entry.mk wpB (Except.ok FType.regular)
            (Listing.entries EntryList.nil)))
          EntryList.nil))))
      EntryList.nil))

/-! Theorems. -/

/-- Claim C1: with forceRebuild false, the rebuild decision
(`Except.ok true` is `Rebuild`, `Except.ok false` is `Skip`) is `Rebuild`
when the output file does not exist, `Rebuild` when the input's
modification time is greater than or equal to the output's, and `Skip`
when the input's is strictly less than the output's. -/
theorem claim1_staleness_decision (fs : FS) (file rs_file : Path)
    (hrs : fs.metaErr rs_file = none) (hf : fs.metaErr file = none) :
    (fs.files rs_file = none →
      rebuildDecision false fs file rs_file = Except.ok true)
    ∧ (∀ i o, fs.files file = some i → fs.files rs_file = some o →
        i.mtime ≥ o.mtime →
        rebuildDecision false fs file rs_file = Except.ok true)
    ∧ (∀ i o, fs.files file = some i → fs.files rs_file = some o →
        i.mtime < o.mtime →
        rebuildDecision false fs file rs_file = Except.ok false) := by
  refine ⟨fun h0 => ?_, fun i o hi ho hge => ?_, fun i o hi ho hlt => ?_⟩
  · simp [rebuildDecision, needs_rebuild, FS.metadata, hrs, h0, notFoundError]
  · simp [rebuildDecision, needs_rebuild, FS.metadata, hrs, hf, hi, ho,
          compare_modification_times, hge]
  · simp [rebuildDecision, needs_rebuild, FS.metadata, hrs, hf, hi, ho,
          compare_modification_times]
    omega

/-- Witness for claim C1: the output is missing in `wfs`, and in `wfsRo`
the input (mtime 5) is newer than the output (mtime 3). -/
theorem claim1_staleness_decision_witness :
    rebuildDecision false wfs wpA wpArs = Except.ok true
    ∧ rebuildDecision false wfsRo wpA wpArs = Except.ok true := by
  constructor
  · exact (claim1_staleness_decision wfs wpA wpArs rfl rfl).1 rfl
  · exact (claim1_staleness_decision wfsRo wpA wpArs rfl rfl).2.1 wInfoA wInfoOut
      rfl rfl (by decide)

/-- Claim C4: with the force flag set, the rebuild decision is `Rebuild`
unconditionally — `needs_rebuild` is never consulted, so neither the
timestamps nor the existence of the output matter. -/
theorem claim4_force_rebuild (fs : FS) (file rs_file : Path) :
    rebuildDecision true fs file rs_file = Except.ok true := rfl

/-- Claim C6: removing the old output is a successful no-op when the
underlying removal reports NotFound or PermissionDenied, propagates every
other removal error, and succeeds in actually deleting a present (possibly
read-only) output when no environmental error is injected. -/
theorem claim6_remove_tolerance (fs : FS) (rs_file : Path) :
    (∀ e, fs.removeFile rs_file = Except.error e →
      ((e.kind = IoErrorKind.NotFound ∨ e.kind = IoErrorKind.PermissionDenied) →
        remove_old_file fs rs_file = Except.ok fs)
      ∧ (e.kind ≠ IoErrorKind.NotFound → e.kind ≠ IoErrorKind.PermissionDenied →
        remove_old_file fs rs_file = Except.error e))
    ∧ (∀ info, fs.files rs_file = some info → fs.removeErr rs_file = none →
        remove_old_file fs rs_file = Except.ok (fs.eraseFile rs_file)) := by
  constructor
  · intro e he
    constructor
    · rintro (hk | hk) <;> simp [remove_old_file, he, hk]
    · intro h1 h2
      rcases e with ⟨k, d⟩
      cases k <;> simp_all [remove_old_file, he]
  · intro info hi hr
    simp [remove_old_file, FS.removeFile, hi, hr]

/-- Witness for claim C6: an injected `Other`-kind removal error is fatal,
and a present read-only output is removed successfully. -/
theorem claim6_remove_tolerance_witness :
    remove_old_file wfsRem wpArs = Except.error wIoErr
    ∧ remove_old_file wfsRo wpArs = Except.ok (wfsRo.eraseFile wpArs) :=
  ⟨((claim6_remove_tolerance wfsRem wpArs).1 wIoErr rfl).2 (by decide) (by decide),
   (claim6_remove_tolerance wfsRo wpArs).2 wInfoOut rfl rfl⟩

/-- Writing the file map at `p` leaves every other path unchanged. -/
theorem setFile_frame (fs : FS) (p q : Path) (info : FileInfo) (hq : q ≠ p) :
    (fs.setFile p info).files q = fs.files q := by
  simp [FS.setFile, hq]

/-- Deleting `p` from the file map leaves every other path unchanged. -/
theorem eraseFile_frame (fs : FS) (p q : Path) (hq : q ≠ p) :
    (fs.eraseFile p).files q = fs.files q := by
  simp [FS.eraseFile, hq]

/-- Writing bytes to `p` leaves every other path unchanged. -/
theorem writeBytes_frame (fs : FS) (p q : Path) (bytes : List Nat) (hq : q ≠ p) :
    (fs.writeBytes p bytes).files q = fs.files q := by
  unfold FS.writeBytes
  cases fs.files p with
  | none => rfl
  | some info => exact setFile_frame fs p q _ hq

/-- A successful `remove_old_file` either left the filesystem unchanged
(the tolerated no-op) or deleted exactly the output path. -/
theorem remove_old_file_ok_cases (fs fs' : FS) (p : Path)
    (h : remove_old_file fs p = Except.ok fs') :
    fs' = fs ∨ fs' = fs.eraseFile p := by
  unfold remove_old_file at h
  cases hr : fs.removeFile p with
  | ok fs1 =>
    rw [hr] at h
    simp only [Except.ok.injEq] at h
    unfold FS.removeFile at hr
    cases he : fs.removeErr p with
    | some e => rw [he] at hr; exact absurd hr (by simp)
    | none =>
      rw [he] at hr
      cases hf : fs.files p with
      | some info =>
        rw [hf] at hr
        simp only [Except.ok.injEq] at hr
        exact Or.inr (by rw [← h, ← hr])
      | none => rw [hf] at hr; exact absurd hr (by simp)
  | error e =>
    rw [hr] at h
    rcases e with ⟨k, d⟩
    cases k with
    | NotFound =>
      simp only [Except.ok.injEq] at h
      exact Or.inl h.symm
    | PermissionDenied =>
      simp only [Except.ok.injEq] at h
      exact Or.inl h.symm
    | Other n => exact absurd h (by simp)

/-- A successful `remove_old_file` leaves every other path unchanged. -/
theorem remove_old_file_frame (fs fs' : FS) (p q : Path) (hq : q ≠ p)
    (h : remove_old_file fs p = Except.ok fs') : fs'.files q = fs.files q := by
  rcases remove_old_file_ok_cases fs fs' p h with h' | h'
  · rw [h']
  · rw [h']; exact eraseFile_frame fs p q hq

/-- A successful `File::create` produced exactly a fresh empty writable
file at the path. -/
theorem createFile_ok_eq (fs fs' : FS) (p : Path)
    (h : fs.createFile p = Except.ok fs') :
    fs' = fs.setFile p ⟨fs.now, false, []⟩ := by
  unfold FS.createFile at h
  cases hc : fs.createErr p with
  | some e => rw [hc] at h; exact absurd h (by simp)
  | none =>
    rw [hc] at h
    cases hf : fs.files p with
    | some info =>
      rw [hf] at h
      by_cases hro : info.readonly = true
      · simp [hro] at h
      · simp [hro] at h
        exact h.symm
    | none =>
      rw [hf] at h
      simp only [Except.ok.injEq] at h
      exact h.symm

/-- A successful `make_read_only` set the read-only bit of the existing
file at the path and did nothing else. -/
theorem make_read_only_ok_eq (fs fs' : FS) (p : Path)
    (h : make_read_only fs p = Except.ok fs') :
    ∃ info, fs.files p = some info ∧
      fs' = fs.setFile p { info with readonly := true } := by
  unfold make_read_only at h
  cases hm : fs.metadata p with
  | error e => rw [hm] at h; exact absurd h (by simp)
  | ok info0 =>
    rw [hm] at h
    unfold FS.setReadonly at h
    cases hp : fs.permErr p with
    | some e => rw [hp] at h; exact absurd h (by simp)
    | none =>
      rw [hp] at h
      cases hf : fs.files p with
      | none => rw [hf] at h; exact absurd h (by simp)
      | some info =>
        rw [hf] at h
        simp only [Except.ok.injEq] at h
        exact ⟨info, rfl, h.symm⟩

/-- After a successful `make_read_only` the file at the path exists and is
read-only. -/
theorem make_read_only_ok_readonly (fs fs' : FS) (p : Path)
    (h : make_read_only fs p = Except.ok fs') :
    ∃ info, fs'.files p = some info ∧ info.readonly = true := by
  rcases make_read_only_ok_eq fs fs' p h with ⟨info, _, hset⟩
  exact ⟨{ info with readonly := true }, by rw [hset]; simp [FS.setFile], rfl⟩

/-- A successful `make_read_only` leaves every other path unchanged. -/
theorem make_read_only_frame (fs fs' : FS) (p q : Path) (hq : q ≠ p)
    (h : make_read_only fs p = Except.ok fs') : fs'.files q = fs.files q := by
  rcases make_read_only_ok_eq fs fs' p h with ⟨info, _, hset⟩
  rw [hset]
  exact setFile_frame fs p q _ hq

/-- One loop iteration never touches any path other than the derived
output path of its file. -/
theorem processOne_frame (proc : Processor) (force_build : Bool) (fs : FS)
    (file q : Path) (hq : q ≠ file.withExtension "rs") :
    (processOne proc force_build fs file).1.files q = fs.files q := by
  simp only [processOne]
  split
  · rfl
  · rfl
  · split
    · rfl
    · rename_i fs1 hro
      have h1 : fs1.files q = fs.files q :=
        remove_old_file_frame fs fs1 _ q hq hro
      split
      · exact h1
      · rename_i input_file hld
        split
        · exact h1
        · rename_i fs2 hcr
          have h2 : fs2.files q = fs1.files q := by
            rw [createFile_ok_eq fs1 fs2 _ hcr]
            exact setFile_frame fs1 _ q _ hq
          have h3 : (fs2.writeBytes (file.withExtension "rs")
              (proc.process input_file).1).files q = fs2.files q :=
            writeBytes_frame fs2 _ q _ hq
          split
          · show (fs2.writeBytes (file.withExtension "rs")
                (proc.process input_file).1).files q = fs.files q
            rw [h3, h2, h1]
          · split
            · show (fs2.writeBytes (file.withExtension "rs")
                  (proc.process input_file).1).files q = fs.files q
              rw [h3, h2, h1]
            · rename_i fs4 hmk
              have h4 := make_read_only_frame _ fs4 _ q hq hmk
              show fs4.files q = fs.files q
              rw [h4, h3, h2, h1]

/-- Claim C2: in the rebuild step the read-only lock comes only after a
fully successful write: whenever the iteration fails (load, create, write,
or any other step), no lock event is in its trace; and when it succeeds
having regenerated the output (a create event is in the trace), the output
file exists and is read-only in the final filesystem. -/
theorem claim2_lock_after_write (proc : Processor) (force_build : Bool)
    (fs : FS) (file : Path) (fs' : FS) (tr : List Event)
    (res : Except Error Unit)
    (h : processOne proc force_build fs file = (fs', tr, res)) :
    (∀ e, res = Except.error e → Event.locked (file.withExtension "rs") ∉ tr)
    ∧ (res = Except.ok () → Event.created (file.withExtension "rs") ∈ tr →
        ∃ info, fs'.files (file.withExtension "rs") = some info ∧
          info.readonly = true) := by
  simp only [processOne] at h
  split at h
  · simp only [Prod.mk.injEq] at h
    obtain ⟨hfs, htr, hres⟩ := h
    subst hfs htr hres
    exact ⟨fun e' _ => by simp, fun hok _ => absurd hok (by simp)⟩
  · simp only [Prod.mk.injEq] at h
    obtain ⟨hfs, htr, hres⟩ := h
    subst hfs htr hres
    exact ⟨fun e' he' => absurd he' (by simp), fun _ hcr => absurd hcr (by simp)⟩
  · split at h
    · simp only [Prod.mk.injEq] at h
      obtain ⟨hfs, htr, hres⟩ := h
      subst hfs htr hres
      exact ⟨fun e' _ => by simp, fun hok _ => absurd hok (by simp)⟩
    · split at h
      · simp only [Prod.mk.injEq] at h
        obtain ⟨hfs, htr, hres⟩ := h
        subst hfs htr hres
        refine ⟨fun e' _ => ?_, fun hok _ => absurd hok (by simp)⟩
        simp
      · split at h
        · simp only [Prod.mk.injEq] at h
          obtain ⟨hfs, htr, hres⟩ := h
          subst hfs htr hres
          refine ⟨fun e' _ => ?_, fun hok _ => absurd hok (by simp)⟩
          simp
        · split at h
          · simp only [Prod.mk.injEq] at h
            obtain ⟨hfs, htr, hres⟩ := h
            subst hfs htr hres
            refine ⟨fun e' _ => ?_, fun hok _ => absurd hok (by simp)⟩
            simp
          · split at h
            · simp only [Prod.mk.injEq] at h
              obtain ⟨hfs, htr, hres⟩ := h
              subst hfs htr hres
              refine ⟨fun e' _ => ?_, fun hok _ => absurd hok (by simp)⟩
              simp
            · rename_i fs4 hmk
              simp only [Prod.mk.injEq] at h
              obtain ⟨hfs, htr, hres⟩ := h
              subst hfs htr hres
              refine ⟨fun e' he' => absurd he' (by simp), fun _ _ => ?_⟩
              exact make_read_only_ok_readonly _ fs4 _ hmk

/-- Witness for claim C2: a failing processor leaves no lock event in the
trace; a successful regeneration leaves a read-only output. -/
theorem claim2_lock_after_write_witness :
    Event.locked (wpA.withExtension "rs") ∉ (processOne wProcIoFail false wfs wpA).2.1
    ∧ ∃ info,
        (processOne wProcOk false wfs wpA).1.files (wpA.withExtension "rs") =
          some info ∧ info.readonly = true :=
  ⟨(claim2_lock_after_write wProcIoFail false wfs wpA _ _ _ rfl).1
      (Error.ioFailure wIoErr) rfl,
   (claim2_lock_after_write wProcOk false wfs wpA _ _ _ rfl).2 rfl (by decide)⟩

/-- Claim C9: with forceRebuild false, a non-NotFound error while statting
the output is fatal: `needs_rebuild` propagates it, the loop body turns it
into an I/O failure (no Skip or Rebuild decision, filesystem untouched),
and the file loop stops there regardless of the remaining files. -/
theorem claim9_metadata_error_fatal (proc : Processor) (fs : FS) (file : Path)
    (e : IoError) (rest : List Path)
    (hmeta : fs.metaErr (file.withExtension "rs") = some e)
    (hk : e.kind ≠ IoErrorKind.NotFound) :
    needs_rebuild fs file (file.withExtension "rs") = Except.error e
    ∧ processOne proc false fs file = (fs, [], Except.error (Error.ioFailure e))
    ∧ processFiles proc false fs (file :: rest) =
        (fs, [], Except.error (Error.ioFailure e)) := by
  have h1 : needs_rebuild fs file (file.withExtension "rs") = Except.error e := by
    rcases e with ⟨k, d⟩
    cases k <;> simp_all [needs_rebuild, FS.metadata, hmeta]
  have h2 : processOne proc false fs file =
      (fs, [], Except.error (Error.ioFailure e)) := by
    simp [processOne, rebuildDecision, h1]
  exact ⟨h1, h2, by simp [processFiles, h2]⟩

mutual
/-- The scanner equals: the first traversal error when there is one,
otherwise exactly the matching regular files. -/
theorem files_char (L : Listing) (E : String) :
    files L E = (match firstScanError L with
                 | some e => Except.error e
                 | none => Except.ok (matchingFiles L E)) := by
  match L with
  | Listing.readDirErr e => rfl
  | Listing.entries l =>
    simpa [files, firstScanError, matchingFiles] using filesEntryList_char l E

/-- Lemma `files_char` over a directory's entries. -/
theorem filesEntryList_char (l : EntryList) (E : String) :
    filesEntryList l E = (match firstScanErrorEntryList l with
                          | some e => Except.error e
                          | none => Except.ok (matchingFilesEntryList l E)) := by
  match l with
  | EntryList.nil => rfl
  | EntryList.cons h t =>
    have hh := filesEntryResult_char h E
    have ht := filesEntryList_char t E
    cases hhe : firstScanErrorEntryResult h with
    | some e =>
      rw [hhe] at hh
      simp [filesEntryList, hh, hhe, firstScanErrorEntryList]
    | none =>
      rw [hhe] at hh
      cases hte : firstScanErrorEntryList t with
      | some e =>
        rw [hte] at ht
        simp [filesEntryList, hh, ht, hhe, hte, firstScanErrorEntryList]
      | none =>
        rw [hte] at ht
        simp [filesEntryList, hh, ht, hhe, hte, firstScanErrorEntryList,
              matchingFilesEntryList]

/-- Lemma `files_char` over one directory-iterator item. -/
theorem filesEntryResult_char (r : EntryResult) (E : String) :
    filesEntryResult r E = (match firstScanErrorEntryResult r with
                            | some e => Except.error e
                            | none => Except.ok (matchingFilesEntryResult r E)) := by
  match r with
  | EntryResult.fail e => rfl
  | EntryResult.ok (Entry.mk path ftype listing) =>
    match ftype with
    | Except.error e => rfl
    | Except.ok ft =>
      by_cases hft : ft = FType.dir
      · subst hft
        have hl := files_char listing E
        cases hle : firstScanError listing with
        | some e =>
          rw [hle] at hl
          simp [filesEntryResult, hl, hle, firstScanErrorEntryResult]
        | none =>
          rw [hle] at hl
          simp [filesEntryResult, hl, hle, firstScanErrorEntryResult,
                matchingFilesEntryResult]
      · simp [filesEntryResult, hft, firstScanErrorEntryResult,
              matchingFilesEntryResult]
end

/-- Claim C5: when the scan succeeds it returns exactly the regular files
(at any depth) whose extension equals `E` — never directories, never other
extensions (see `matchingFiles`) — and it fails exactly when the traversal
hits an I/O error (unreadable directory, undeterminable entry type),
returning the first such error and no partial result. -/
theorem claim5_scan_correct (L : Listing) (E : String) :
    (∀ l, files L E = Except.ok l → l = matchingFiles L E)
    ∧ (∀ e, files L E = Except.error e ↔ firstScanError L = some e) := by
  have h := files_char L E
  cases hfe : firstScanError L with
  | some e => rw [hfe] at h; simp [h, hfe]
  | none => rw [hfe] at h; simp [h, hfe]

/-- Witness for claim C5 on the concrete two-level tree holding
`root/a.ext` and `root/sub/b.ext`. -/
theorem claim5_scan_correct_witness :
    [wpA, wpB] = matchingFiles wtree "ext"
    ∧ (files wtree "ext" = Except.error wIoErr ↔
        firstScanError wtree = some wIoErr) :=
  ⟨(claim5_scan_correct wtree "ext").1 [wpA, wpB] rfl,
   (claim5_scan_correct wtree "ext").2 wIoErr⟩

/-- A failing head stops the file loop: the result does not depend on the
remaining files. -/
theorem processFiles_cons_error (proc : Processor) (force_build : Bool)
    (fs fs' : FS) (f : Path) (rest : List Path) (tr : List Event) (e : Error)
    (h : processOne proc force_build fs f = (fs', tr, Except.error e)) :
    processFiles proc force_build fs (f :: rest) = (fs', tr, Except.error e) := by
  simp [processFiles, h]

/-- Processing a concatenation whose first part succeeds continues from
the intermediate state, accumulating the traces. -/
theorem processFiles_append (proc : Processor) (force_build : Bool)
    (fs fs0 : FS) (l1 : List Path) (tr0 : List Event)
    (h : processFiles proc force_build fs l1 = (fs0, tr0, Except.ok ()))
    (l2 : List Path) :
    processFiles proc force_build fs (l1 ++ l2) =
      ((processFiles proc force_build fs0 l2).1,
       tr0 ++ (processFiles proc force_build fs0 l2).2.1,
       (processFiles proc force_build fs0 l2).2.2) := by
  induction l1 generalizing fs tr0 with
  | nil =>
    simp only [processFiles, Prod.mk.injEq] at h
    obtain ⟨h1, h2, _⟩ := h
    subst h1 h2
    simp [processFiles]
  | cons f t ih =>
    rw [List.cons_append]
    simp only [processFiles] at h ⊢
    split at h
    · rename_i fs' tr hone
      have h3 : (processFiles proc force_build fs' t).2.2 = Except.ok () := by
        have := congrArg (fun x => x.2.2) h
        simpa using this
      have h1 : (processFiles proc force_build fs' t).1 = fs0 := by
        have := congrArg (fun x => x.1) h
        simpa using this
      have h2 : tr ++ (processFiles proc force_build fs' t).2.1 = tr0 := by
        have := congrArg (fun x => x.2.1) h
        simpa using this
      have hx : processFiles proc force_build fs' t =
          (fs0, (processFiles proc force_build fs' t).2.1, Except.ok ()) := by
        rw [← h1, ← h3]
      have hrec := ih fs' ((processFiles proc force_build fs' t).2.1) hx
      rw [hrec]
      simp [← h2, List.append_assoc]
    · exact absurd (congrArg (fun x => x.2.2) h) (by simp)

/-- Claim C3: when the processing of some discovered file fails with a
source error, the whole run prints exactly the formatted diagnostic line
followed by the highlighted excerpt and exits with status 1; the loop
result does not depend on the files after the failing one, and no path
other than the failing file's output differs from the state the run had
reached before it. -/
theorem claim3_source_error_fatal (proc : Processor) (force_build : Bool)
    (fs fs0 fs' : FS) (listing : Listing) (extension : String)
    (pre : List Path) (f : Path) (rest : List Path)
    (tr0 tr : List Event) (ft : FileText) (cause : String) (span : Span)
    (hscan : files listing extension = Except.ok (pre ++ f :: rest))
    (hpre : processFiles proc force_build fs pre = (fs0, tr0, Except.ok ()))
    (hf : processOne proc force_build fs0 f =
      (fs', tr, Except.error (Error.sourceError ft cause span))) :
    perform_processing_or_die proc force_build fs listing extension =
      ⟨fs', tr0 ++ tr,
       [OutEvent.line (sourceDiagLine ft cause span), OutEvent.highlight ft span],
       some 1⟩
    ∧ ∀ p, p ≠ f.withExtension "rs" → fs'.files p = fs0.files p := by
  have hcons := processFiles_cons_error proc force_build fs0 fs' f rest tr
    (Error.sourceError ft cause span) hf
  have hloop : processFiles proc force_build fs (pre ++ f :: rest) =
      (fs', tr0 ++ tr, Except.error (Error.sourceError ft cause span)) := by
    rw [processFiles_append proc force_build fs fs0 pre tr0 hpre (f :: rest),
        hcons]
  constructor
  · simp [perform_processing_or_die, perform_processing, hscan, hloop]
  · intro p hp
    have hfr := processOne_frame proc force_build fs0 f p hp
    rw [hf] at hfr
    exact hfr

/-- Witness for claim C3: the failing processor on `root/a.ext` makes the
whole run print the diagnostic and the highlight and exit with status 1,
leaving `root/sub/b.ext` untouched. -/
theorem claim3_source_error_fatal_witness :
    perform_processing_or_die wProcSrc false wfs wtree "ext" =
      ⟨(processOne wProcSrc false wfs wpA).1,
       [] ++ (processOne wProcSrc false wfs wpA).2.1,
       [OutEvent.line (sourceDiagLine ⟨wpA, wInfoA.content⟩ "bad token" wSpan),
        OutEvent.highlight ⟨wpA, wInfoA.content⟩ wSpan],
       some 1⟩
    ∧ ∀ p, p ≠ wpA.withExtension "rs" →
        ((processOne wProcSrc false wfs wpA).1).files p = wfs.files p :=
  claim3_source_error_fatal wProcSrc false wfs wfs
    (processOne wProcSrc false wfs wpA).1 wtree "ext" [] wpA [wpB] []
    (processOne wProcSrc false wfs wpA).2.1 ⟨wpA, wInfoA.content⟩ "bad token"
    wSpan rfl rfl rfl

/-- Claim C8: when the processing of some discovered file fails with an
I/O failure, the run prints exactly the error's description, the loop stops
there (the result does not depend on the remaining files), and no exit is
performed — the run returns normally with no distinct failure status,
unlike the source-error path. -/
theorem claim8_io_failure_nonfatal (proc : Processor) (force_build : Bool)
    (fs fs0 fs' : FS) (listing : Listing) (extension : String)
    (pre : List Path) (f : Path) (rest : List Path)
    (tr0 tr : List Event) (e : IoError)
    (hscan : files listing extension = Except.ok (pre ++ f :: rest))
    (hpre : processFiles proc force_build fs pre = (fs0, tr0, Except.ok ()))
    (hf : processOne proc force_build fs0 f =
      (fs', tr, Except.error (Error.ioFailure e))) :
    perform_processing_or_die proc force_build fs listing extension =
      ⟨fs', tr0 ++ tr, [OutEvent.line e.descr], none⟩ := by
  have hcons := processFiles_cons_error proc force_build fs0 fs' f rest tr
    (Error.ioFailure e) hf
  have hloop : processFiles proc force_build fs (pre ++ f :: rest) =
      (fs', tr0 ++ tr, Except.error (Error.ioFailure e)) := by
    rw [processFiles_append proc force_build fs fs0 pre tr0 hpre (f :: rest),
        hcons]
  simp [perform_processing_or_die, perform_processing, hscan, hloop]

/-- Witness for claim C8: the I/O-failing processor on `root/a.ext` makes
the run print "disk error" and return without exiting. -/
theorem claim8_io_failure_nonfatal_witness :
    perform_processing_or_die wProcIoFail false wfs wtree "ext" =
      ⟨(processOne wProcIoFail false wfs wpA).1,
       [] ++ (processOne wProcIoFail false wfs wpA).2.1,
       [OutEvent.line wIoErr.descr], none⟩ :=
  claim8_io_failure_nonfatal wProcIoFail false wfs wfs
    (processOne wProcIoFail false wfs wpA).1 wtree "ext" [] wpA [wpB] []
    (processOne wProcIoFail false wfs wpA).2.1 wIoErr rfl rfl rfl

/-- Claim C7: the diagnostic printed for a source error maps the span's
start and end offsets independently through `line_col` and renders one
line `<path>:<startLine>:<startCol>: <endLine>:<endCol> error: <message>`
in which both line numbers and the start column are the zero-based
internal values plus one while the end column is the zero-based internal
value unchanged, followed by the highlighted excerpt of the span. -/
theorem claim7_diag_format (proc : Processor) (force_build : Bool) (fs : FS)
    (listing : Listing) (extension : String) (ft : FileText) (cause : String)
    (span : Span)
    (hrun : (perform_processing proc force_build fs listing extension).2.2 =
      Except.error (Error.sourceError ft cause span)) :
    (perform_processing_or_die proc force_build fs listing extension).output =
      [OutEvent.line (ft.path.display ++ ":" ++
          toString ((ft.line_col span.start).1 + 1) ++ ":" ++
          toString ((ft.line_col span.start).2 + 1) ++ ": " ++
          toString ((ft.line_col span.stop).1 + 1) ++ ":" ++
          toString (ft.line_col span.stop).2 ++ " error: " ++ cause),
       OutEvent.highlight ft span]
    ∧ (perform_processing_or_die proc force_build fs listing
        extension).exited = some 1 := by
  unfold perform_processing_or_die
  rcases hpp : perform_processing proc force_build fs listing extension with
    ⟨fs', tr, res⟩
  rw [hpp] at hrun
  simp only [] at hrun
  subst hrun
  simp [sourceDiagLine]

/-- Witness for claim C7: the concrete run prints the diagnostic for span
(1, 3) of the two-line input "h\ni". -/
theorem claim7_diag_format_witness :
    (perform_processing_or_die wProcSrc false wfs wtree "ext").output =
      [OutEvent.line ((FileText.mk wpA wInfoA.content).path.display ++ ":" ++
          toString (((FileText.mk wpA wInfoA.content).line_col wSpan.start).1 + 1)
          ++ ":" ++
          toString (((FileText.mk wpA wInfoA.content).line_col wSpan.start).2 + 1)
          ++ ": " ++
          toString (((FileText.mk wpA wInfoA.content).line_col wSpan.stop).1 + 1)
          ++ ":" ++
          toString ((FileText.mk wpA wInfoA.content).line_col wSpan.stop).2 ++
          " error: " ++ "bad token"),
       OutEvent.highlight ⟨wpA, wInfoA.content⟩ wSpan]
    ∧ (perform_processing_or_die wProcSrc false wfs wtree "ext").exited =
        some 1 :=
  claim7_diag_format wProcSrc false wfs wtree "ext" ⟨wpA, wInfoA.content⟩
    "bad token" wSpan rfl

/-- Claim C10: the generated-output extension is the fixed "rs", so an
input already ending in ".rs" derives itself as its output; such an input
present on disk is always considered stale (its mtime is not less than its
own), and the rebuild step then removes the input itself before trying to
load it, which fails with NotFound on the now-deleted file. -/
theorem claim10_rs_input_self_destruction (proc : Processor) (fs : FS)
    (file : Path) (info : FileInfo)
    (hext : file.ext = some "rs")
    (hfile : fs.files file = some info)
    (hmeta : fs.metaErr file = none)
    (hrem : fs.removeErr file = none)
    (hload : fs.loadErr file = none) :
    file.withExtension "rs" = file
    ∧ needs_rebuild fs file (file.withExtension "rs") = Except.ok true
    ∧ processOne proc false fs file =
        (fs.eraseFile file, [Event.removed file],
         Except.error (Error.ioFailure notFoundError)) := by
  have hself : file.withExtension "rs" = file := by
    rcases file with ⟨dirs, stem, ext⟩
    simp only [Path.ext] at hext
    simp [Path.withExtension, hext]
  have hnr : needs_rebuild fs file file = Except.ok true := by
    simp [needs_rebuild, FS.metadata, hmeta, hfile, compare_modification_times]
  have hdec : rebuildDecision false fs file file = Except.ok true := by
    simp [rebuildDecision, hnr]
  have hrm : remove_old_file fs file = Except.ok (fs.eraseFile file) := by
    simp [remove_old_file, FS.removeFile, hrem, hfile]
  have hfp : FileText.from_path (fs.eraseFile file) file =
      Except.error notFoundError := by
    simp [FileText.from_path, FS.eraseFile, hload]
  refine ⟨hself, by rw [hself]; exact hnr, ?_⟩
  simp [processOne, hself, hdec, hrm, hfp]

/-- Witness for claim C10: the `.rs` input `root/gen.rs` is removed and
then fails to load. -/
theorem claim10_rs_input_self_destruction_witness :
    wpSelf.withExtension "rs" = wpSelf
    ∧ needs_rebuild wfsSelf wpSelf (wpSelf.withExtension "rs") = Except.ok true
    ∧ processOne wProcOk false wfsSelf wpSelf =
        (wfsSelf.eraseFile wpSelf, [Event.removed wpSelf],
         Except.error (Error.ioFailure notFoundError)) :=
  claim10_rs_input_self_destruction wProcOk wfsSelf wpSelf wInfoA
    rfl rfl rfl rfl rfl

/-- Witness for claim C9: the injected metadata error on `root/a.rs`
aborts the processing of `root/a.ext`. -/
theorem claim9_metadata_error_fatal_witness :
    needs_rebuild wfsMeta wpA (wpA.withExtension "rs") = Except.error wMetaErr
    ∧ processOne wProcOk false wfsMeta wpA =
        (wfsMeta, [], Except.error (Error.ioFailure wMetaErr)) :=
  ⟨(claim9_metadata_error_fatal wProcOk wfsMeta wpA wMetaErr [] rfl (by decide)).1,
   (claim9_metadata_error_fatal wProcOk wfsMeta wpA wMetaErr [] rfl (by decide)).2.1⟩

end BuildCompile
